import Mathlib

/-!
Shallow embedding of the SafePI security scanner (src/safepi.js) and proofs of
the specified properties.  Pure JavaScript functions become Lean functions on
strings (represented as lists of characters where recursion is needed);
side-effecting code (console, network, filesystem, delays) is modelled by an
explicit list of `Effect`s produced alongside the return value, with the
outcomes of external calls (the HTTP API, the filesystem) supplied as oracle
parameters.  JavaScript `null`/`undefined` arguments are modelled by `Option`.
-/

namespace SafePI

/-! ### Character and string helpers (ASCII, as used by the scanner) -/

/-- The apostrophe character, `'`. -/
def squoteC : Char := Char.ofNat 39

/-- The double-quote character, `"`. -/
def dquoteC : Char := Char.ofNat 34

/-- The backslash character. -/
def bslashC : Char := Char.ofNat 92

/-- ASCII lowercase conversion of one character; models the effect of
JavaScript `toLowerCase()` on the ASCII inputs the scanner compares. -/
def toLowerChar (c : Char) : Char :=
  if 'A' ≤ c ∧ c ≤ 'Z' then Char.ofNat (c.toNat + 32) else c

/-- ASCII lowercase conversion of a string (JavaScript `s.toLowerCase()`). -/
def toLowerStr (s : String) : String :=
  String.mk (s.toList.map toLowerChar)

/-- Does the character list `l` start with `p`? -/
def leadsWith : List Char → List Char → Bool
  | [], _ => true
  | _ :: _, [] => false
  | p :: ps, c :: cs => p = c && leadsWith ps cs

/-- Does the character list `l` contain `p` as a contiguous substring?
Models JavaScript `String.prototype.includes`. -/
def hasSub (p : List Char) : List Char → Bool
  | [] => leadsWith p []
  | c :: cs => leadsWith p (c :: cs) || hasSub p cs

/-- `hasSub` lifted to strings: does `s` contain `p` as a substring? -/
def strIncludes (s p : String) : Bool := hasSub p.toList s.toList

/-- Split a character list at every occurrence of `sep` (the separator is
dropped; empty pieces are kept, as in JavaScript `String.prototype.split`). -/
def splitOnChar (sep : Char) : List Char → List (List Char)
  | [] => [[]]
  | c :: cs =>
    let r := splitOnChar sep cs
    if c = sep then [] :: r
    else
      match r with
      | [] => [[c]]
      | l :: ls => (c :: l) :: ls

/-- ASCII decimal digit test. -/
def isDigitC (c : Char) : Bool := '0' ≤ c && c ≤ '9'

/-- ASCII letter-or-digit test, the character class `[a-zA-Z0-9]` of the
domain regular expression. -/
def isAlnumC (c : Char) : Bool :=
  ('a' ≤ c && c ≤ 'z') || ('A' ≤ c && c ≤ 'Z') || isDigitC c

/-- The character class `[a-zA-Z0-9-]` of the domain regular expression. -/
def isLabelChar (c : Char) : Bool := isAlnumC c || c = '-'

/-! ### `escapeHtml` (src/safepi.js lines 42-50)

The source applies five global single-character replacements in order:
`&` to `&amp;`, `<` to `&lt;`, `>` to `&gt;`, `"` to `&quot;`, `'` to `&#39;`.
A falsy argument (null, undefined, empty string) yields the empty string. -/

/-- Global replacement of the single character `t` by the character list
`rep`; models `String.prototype.replace` with a global one-character regex. -/
def replaceAllC (t : Char) (rep : List Char) : List Char → List Char
  | [] => []
  | c :: cs => (if c = t then rep else [c]) ++ replaceAllC t rep cs

/-- The five replacement passes of `escapeHtml`, in source order. -/
def escapeHtmlChars (l : List Char) : List Char :=
  replaceAllC squoteC ("&#39;".toList)
    (replaceAllC dquoteC ("&quot;".toList)
      (replaceAllC '>' ("&gt;".toList)
        (replaceAllC '<' ("&lt;".toList)
          (replaceAllC '&' ("&amp;".toList) l))))

/-- `escapeHtml` from src/safepi.js: `none` models a null/undefined argument
(JavaScript falsy check `if (!text) return ""`). -/
def escapeHtml : Option String → String
  | none => ""
  | some s => if s = "" then "" else String.mk (escapeHtmlChars s.toList)

/-! ### `isValidDomain` (src/safepi.js lines 720-748)

The source checks, in order: a falsy/non-string argument fails; length above
253 fails; the anchored regular expression
`[a-zA-Z0-9]([a-zA-Z0-9-]{0,61}[a-zA-Z0-9])?(\.LABEL)*` must match (this is
exactly: the string splits on `.` into labels, each nonempty, of length at
most 63, starting and ending with an alphanumeric character and containing
only alphanumerics and hyphens in between); finally a denylist of dangerous
substrings is checked case-insensitively. -/

/-- Checks the tail of a label: all characters but the last must lie in
`[a-zA-Z0-9-]` and the last must be alphanumeric; the empty tail (a
one-character label) is accepted. -/
def midLast : List Char → Bool
  | [] => true
  | [c] => isAlnumC c
  | c :: cs => isLabelChar c && midLast cs

/-- One DNS label as accepted by the source regular expression. -/
def labelOk : List Char → Bool
  | [] => false
  | c :: cs => isAlnumC c && cs.length ≤ 62 && midLast cs

/-- The anchored domain regular expression of the source, expressed over the
list of dot-separated labels. -/
def domainRegexTest (l : List Char) : Bool :=
  (splitOnChar '.' l).all labelOk

/-- The denylist of src/safepi.js lines 734-743, already lowercased (the
source lowercases each pattern before comparing). -/
def dangerousDomainPatterns : List String :=
  ["localhost", "127.0.0.1", "0.0.0.0", "file://", "javascript:",
   "data:", "ftp://", "ftps://"]

/-- `isValidDomain` from src/safepi.js; `none` models null/undefined (the
source also rejects non-string arguments, not representable here). -/
def isValidDomain : Option String → Bool
  | none => false
  | some s =>
    if s = "" then false
    else if 253 < s.length then false
    else if ¬ domainRegexTest s.toList then false
    else ¬ dangerousDomainPatterns.any fun p =>
      strIncludes (toLowerStr s) (toLowerStr p)

/-! ### URI encoding and decoding (JavaScript builtins used by the scanner)

`encodeURIComponent` and `decodeURIComponent` are platform builtins; they are
modelled byte-precisely over UTF-8, with `none` modelling the `URIError`
exception thrown on malformed input. -/

/-- UTF-8 encoding of one character as a list of byte values. -/
def utf8Encode (c : Char) : List Nat :=
  let n := c.toNat
  if n < 0x80 then [n]
  else if n < 0x800 then [0xC0 + n / 64, 0x80 + n % 64]
  else if n < 0x10000 then
    [0xE0 + n / 4096, 0x80 + (n / 64) % 64, 0x80 + n % 64]
  else
    [0xF0 + n / 262144, 0x80 + (n / 4096) % 64, 0x80 + (n / 64) % 64,
     0x80 + n % 64]

/-- Is `b` a UTF-8 continuation byte (`10xxxxxx`)? -/
def contByte (b : Nat) : Bool := 0x80 ≤ b && b < 0xC0

/-- UTF-8 decoding of a byte list; `none` on any malformed, overlong,
surrogate or out-of-range sequence (the cases where `decodeURIComponent`
throws `URIError`). -/
def utf8Decode : List Nat → Option (List Char)
  | [] => some []
  | b :: bs =>
    if b < 0x80 then (utf8Decode bs).map fun cs => Char.ofNat b :: cs
    else if b < 0xC0 then none
    else if b < 0xE0 then
      match bs with
      | b1 :: rest =>
        if contByte b1 then
          let v := (b - 0xC0) * 64 + (b1 - 0x80)
          if 0x80 ≤ v then (utf8Decode rest).map fun cs => Char.ofNat v :: cs
          else none
        else none
      | [] => none
    else if b < 0xF0 then
      match bs with
      | b1 :: b2 :: rest =>
        if contByte b1 && contByte b2 then
          let v := (b - 0xE0) * 4096 + (b1 - 0x80) * 64 + (b2 - 0x80)
          if 0x800 ≤ v ∧ (v < 0xD800 ∨ 0xDFFF < v) then
            (utf8Decode rest).map fun cs => Char.ofNat v :: cs
          else none
        else none
      | _ => none
    else if b < 0xF8 then
      match bs with
      | b1 :: b2 :: b3 :: rest =>
        if contByte b1 && contByte b2 && contByte b3 then
          let v := (b - 0xF0) * 262144 + (b1 - 0x80) * 4096 +
                   (b2 - 0x80) * 64 + (b3 - 0x80)
          if 0x10000 ≤ v ∧ v ≤ 0x10FFFF then
            (utf8Decode rest).map fun cs => Char.ofNat v :: cs
          else none
        else none
      | _ => none
    else none

/-- Value of one hexadecimal digit character. -/
def hexDigitVal (c : Char) : Option Nat :=
  if isDigitC c then some (c.toNat - 48)
  else if 'a' ≤ c && c ≤ 'f' then some (c.toNat - 87)
  else if 'A' ≤ c && c ≤ 'F' then some (c.toNat - 55)
  else none

/-- Turns a character list into the byte list `decodeURIComponent` would
decode: each `%XX` escape contributes the byte `XX`, every other character
contributes its UTF-8 bytes; `none` on a malformed escape. -/
def percentDecodeBytes : List Char → Option (List Nat)
  | [] => some []
  | '%' :: h1 :: h2 :: rest =>
    match hexDigitVal h1, hexDigitVal h2 with
    | some a, some b => (percentDecodeBytes rest).map fun l => (a * 16 + b) :: l
    | _, _ => none
  | '%' :: _ => none
  | c :: cs => (percentDecodeBytes cs).map fun l => utf8Encode c ++ l

/-- JavaScript `decodeURIComponent`; `none` models a thrown `URIError`. -/
def decodeURIComponentJs (s : String) : Option String :=
  ((percentDecodeBytes s.toList).bind utf8Decode).map String.mk

/-- Characters left unescaped by `encodeURIComponent`. -/
def uriUnreserved (c : Char) : Bool :=
  isAlnumC c || c = '-' || c = '_' || c = '.' || c = '!' || c = '~' ||
  c = '*' || c = squoteC || c = '(' || c = ')'

/-- One byte as a two-digit uppercase percent escape. -/
def percentEscape (b : Nat) : List Char :=
  let hex := fun n => if n < 10 then Char.ofNat (48 + n) else Char.ofNat (55 + n)
  ['%', hex (b / 16), hex (b % 16)]

/-- JavaScript `encodeURIComponent`. -/
def encodeURIComponent (s : String) : String :=
  String.mk (s.toList.foldr
    (fun c acc =>
      (if uriUnreserved c then [c] else (utf8Encode c).foldr
        (fun b bacc => percentEscape b ++ bacc) []) ++ acc) [])

/-! ### Node `path` operations (POSIX semantics, as on the systems the CLI
targets): `isAbsolute`, `normalize`, `resolve`, `join`. -/

/-- Node `path.isAbsolute` on POSIX: the path starts with a slash. -/
def isAbsolutePath (s : String) : Bool :=
  match s.toList with
  | c :: _ => c = '/'
  | [] => false

/-- The path segment consisting of a single dot. -/
def dotSeg : List Char := ['.']

/-- The path segment consisting of two dots. -/
def dotdotSeg : List Char := ['.', '.']

/-- Core of Node `path.normalize`: folds the slash-separated segments into a
stack, dropping empty and `.` segments, resolving `..` against the stack
(`..` above the root is kept for relative paths and dropped for absolute
ones).  Produces the segments in reverse order. -/
def normStack (isAbs : Bool) : List (List Char) → List (List Char) → List (List Char)
  | stack, [] => stack
  | stack, seg :: rest =>
    if seg = [] || seg = dotSeg then normStack isAbs stack rest
    else if seg = dotdotSeg then
      match stack with
      | [] => if isAbs then normStack isAbs [] rest
              else normStack isAbs [dotdotSeg] rest
      | top :: stk =>
        if top = dotdotSeg then normStack isAbs (dotdotSeg :: stack) rest
        else normStack isAbs stk rest
    else normStack isAbs (seg :: stack) rest

/-- Joins path segments with slashes. -/
def joinSegs : List (List Char) → List Char
  | [] => []
  | [s] => s
  | s :: rest => s ++ '/' :: joinSegs rest

/-- Node `path.normalize` (POSIX). -/
def normalizePath (p : String) : String :=
  let l := p.toList
  let isAbs := isAbsolutePath p
  let trailing : Bool := match l.getLast? with
    | some c => c = '/'
    | none => false
  let core := joinSegs (normStack isAbs [] (splitOnChar '/' l)).reverse
  if core = [] then
    if isAbs then "/" else if trailing then "./" else "."
  else
    let withAbs := if isAbs then '/' :: core else core
    String.mk (if trailing then withAbs ++ ['/'] else withAbs)

/-- Drops one trailing slash (Node `path.resolve` output carries none except
for the root). -/
def dropTrailSlash (s : String) : String :=
  if s = "/" then s
  else match s.toList.getLast? with
    | some c => if c = '/' then String.mk s.toList.dropLast else s
    | none => s

/-- Node `path.resolve base p` for an absolute `base` (the scanner passes the
current working directory). -/
def resolvePath (base p : String) : String :=
  if isAbsolutePath p then dropTrailSlash (normalizePath p)
  else dropTrailSlash (normalizePath (base ++ "/" ++ p))

/-- Node `path.join a b`. -/
def joinPath (a b : String) : String :=
  normalizePath (a ++ "/" ++ b)

/-! ### `isPathTraversal` (src/safepi.js lines 634-660)

Defined inline in the html branch of `scanSingleDomain`: an absolute path is
dangerous; otherwise the path is URL-decoded, normalized, and checked
case-insensitively against a denylist of traversal patterns.  `none` models
the `URIError` thrown by `decodeURIComponent` on malformed input, which
propagates to the surrounding try/catch of `scanSingleDomain`. -/

/-- The traversal pattern denylist of src/safepi.js lines 645-655. -/
def dangerousPathPatterns : List String :=
  ["..", "/./", "\\", "%2e%2e", "%2E%2E", "..%2f", "..%2F",
   "%2e%2e%2f", "%2E%2E%2F"]

/-- The path-traversal check of the html output branch. -/
def isPathTraversal (inputPath : String) : Option Bool :=
  if isAbsolutePath inputPath then some true
  else
    match decodeURIComponentJs inputPath with
    | none => none
    | some decoded =>
      let normalized := normalizePath decoded
      some (dangerousPathPatterns.any fun pat =>
        strIncludes (toLowerStr normalized) (toLowerStr pat))

/-! ### JavaScript `parseInt` (used by the `--score` option) -/

/-- The whitespace characters `parseInt` skips (ASCII subset). -/
def jsWhitespace (c : Char) : Bool :=
  c = ' ' || c = '\t' || c = '\n' || c = '\r' ||
  c = Char.ofNat 11 || c = Char.ofNat 12

/-- Value of one decimal digit character. -/
def decDigitVal (c : Char) : Option Nat :=
  if isDigitC c then some (c.toNat - 48) else none

/-- Accumulates the longest prefix of digits in the given base; the
accumulator stays `none` until at least one digit is read. -/
def parseDigits (base : Nat) (dv : Char → Option Nat) :
    List Char → Option Nat → Option Nat
  | [], acc => acc
  | c :: cs, acc =>
    match dv c with
    | some d => parseDigits base dv cs (some ((acc.getD 0) * base + d))
    | none => acc

/-- JavaScript `parseInt(s)` with no radix argument: skips leading
whitespace, reads an optional sign, auto-detects a `0x`/`0X` hexadecimal
prefix, and parses the longest digit prefix; `none` models `NaN`. -/
def jsParseInt (s : String) : Option Int :=
  let l := s.toList.dropWhile jsWhitespace
  let signed : Int × List Char :=
    match l with
    | '-' :: rest => (-1, rest)
    | '+' :: rest => (1, rest)
    | _ => (1, l)
  let sign := signed.1
  let l2 := signed.2
  match l2 with
  | '0' :: x :: rest =>
    if x = 'x' || x = 'X' then
      (parseDigits 16 hexDigitVal rest none).map fun n => sign * (n : Int)
    else
      (parseDigits 10 decDigitVal l2 none).map fun n => sign * (n : Int)
  | _ => (parseDigits 10 decDigitVal l2 none).map fun n => sign * (n : Int)

/-! ### Configuration and argument parsing (src/safepi.js lines 439-551)

`parseArgs` reads `process.argv`; it is modelled as a function of the
argument list.  A `process.exit(code)` together with the `console.error`
output produced on the way is modelled by `ParseResult.exit`. -/

/-- The configuration object built by `parseArgs` (source lines 441-449). -/
structure Options where
  domains : List String
  score : Int
  report : String
  output : String
  fail : Bool
  hidden : Bool
  rescan : Bool
  deriving DecidableEq, Repr

/-- The defaults of src/safepi.js lines 441-449. -/
def defaultOptions : Options :=
  { domains := [], score := 100, report := "pretty", output := "./",
    fail := false, hidden := true, rescan := true }

/-- Outcome of argument parsing: a configuration, or process termination
with an exit code, the messages printed to standard error, and whether the
usage text was printed. -/
inductive ParseResult where
  | ok (opts : Options)
  | exit (code : Nat) (stderr : List String) (usage : Bool)
  deriving DecidableEq, Repr

/-- A one-character string holding an apostrophe. -/
def squoteS : String := String.mk [squoteC]

/-- JavaScript `String.prototype.trim` (ASCII whitespace subset). -/
def trimStr (s : String) : String :=
  String.mk (((s.toList.dropWhile jsWhitespace).reverse.dropWhile
    jsWhitespace).reverse)

/-- The `--domain` value processing of source lines 462-467: split on commas,
trim each piece, and drop empty pieces. -/
def splitTrimDomains (v : String) : List String :=
  (((splitOnChar ',' v.toList).map String.mk).map trimStr).filter (· ≠ "")

/-- JavaScript `startsWith("-")`. -/
def dashLeading (s : String) : Bool :=
  match s.toList with
  | c :: _ => c = '-'
  | [] => false

/-- The argument loop of `parseArgs` (source lines 451-541) followed by the
required-option check of lines 544-548, as a recursion over the remaining
argument list. -/
def parseLoop : List String → Options → ParseResult
  | [], o =>
    if o.domains.isEmpty then
      ParseResult.exit 1 ["Error: --domain is required"] true
    else ParseResult.ok o
  | a :: rest, o =>
    if a = "-h" ∨ a = "--help" then ParseResult.exit 0 [] true
    else if a = "-d" ∨ a = "--domain" then
      match rest with
      | [] => ParseResult.exit 1 ["Error: --domain requires a value"] false
      | v :: rest2 => parseLoop rest2 { o with domains := splitTrimDomains v }
    else if a = "-s" ∨ a = "--score" then
      match rest with
      | [] => ParseResult.exit 1 ["Error: --score requires a value"] false
      | v :: rest2 =>
        match jsParseInt v with
        | none => ParseResult.exit 1 ["Error: --score must be a number"] false
        | some n => parseLoop rest2 { o with score := n }
    else if a = "-r" ∨ a = "--report" then
      match rest with
      | [] => ParseResult.exit 1 ["Error: --report requires a value"] false
      | v :: rest2 =>
        if v = "text" ∨ v = "pretty" ∨ v = "html" then
          parseLoop rest2 { o with report := v }
        else
          ParseResult.exit 1 ["Error: --report must be one of: text, pretty, html"] false
    else if a = "-o" ∨ a = "--output" then
      match rest with
      | [] => ParseResult.exit 1 ["Error: --output requires a value"] false
      | v :: rest2 => parseLoop rest2 { o with output := v }
    else if a = "-f" ∨ a = "--fail" then
      match rest with
      | [] => parseLoop [] { o with fail := true }
      | v :: rest2 =>
        if dashLeading v then parseLoop (v :: rest2) { o with fail := true }
        else
          let value := toLowerStr v
          if value = "true" then parseLoop rest2 { o with fail := true }
          else if value = "false" then parseLoop rest2 { o with fail := false }
          else ParseResult.exit 1 ["Error: --fail must be either true or false"] false
    else if a = "--hidden" then
      match rest with
      | [] => ParseResult.exit 1 ["Error: --hidden requires a value (true or false)"] false
      | v :: rest2 =>
        let value := toLowerStr v
        if value = "true" then parseLoop rest2 { o with hidden := true }
        else if value = "false" then parseLoop rest2 { o with hidden := false }
        else ParseResult.exit 1 ["Error: --hidden must be either true or false"] false
    else if a = "--rescan" then
      match rest with
      | [] => ParseResult.exit 1 ["Error: --rescan requires a value (true or false)"] false
      | v :: rest2 =>
        let value := toLowerStr v
        if value = "true" then parseLoop rest2 { o with rescan := true }
        else if value = "false" then parseLoop rest2 { o with rescan := false }
        else ParseResult.exit 1 ["Error: --rescan must be either true or false"] false
    else
      ParseResult.exit 1
        ["Error: Unknown option " ++ squoteS ++ a ++ squoteS] true

/-- `parseArgs` from src/safepi.js, as a function of the argument vector. -/
def parseArgs (args : List String) : ParseResult :=
  parseLoop args defaultOptions

/-! ### Effects and external-world oracles

Side effects are recorded in order in a trace.  The rendered report text of
the text/pretty formatters and the JSON body echoed on an HTTP error are
pure values whose content no claim concerns; those console writes are
recorded as content-free `report`/`consoleErrData` effects. -/

/-- One observable side effect of a run. -/
inductive Effect where
  | consoleOut (s : String)
  | consoleErr (s : String)
  | consoleErrData
  | report (format : String)
  | separator
  | netRequest (hostname : String) (port : Nat) (p : String) (method : String)
  | fsMkdir (p : String)
  | fsWrite (p : String)
  | sleep (ms : Nat)
  deriving DecidableEq, Repr

/-- The fields of the Observatory API response payload that the orchestrator
inspects; `errField` models the optional `error` member. -/
structure ApiData where
  score : Int := 0
  errField : Option String := none
  deriving DecidableEq, Repr

/-- Oracle for the outcome of one HTTPS exchange, covering the failure modes
of `makeRequest`: transport error or timeout, an oversize response body, a
body that is not valid JSON, or a parsed response. -/
inductive NetOutcome where
  | netError (msg : String)
  | respTooLarge
  | respBadJson (msg : String)
  | respOk (statusCode : Int) (data : ApiData)
  deriving DecidableEq, Repr

/-- The components of a parsed URL (`new URL(url)`) that `makeRequest`
reads. -/
structure URLParts where
  hostname : String
  port : Option Nat := none
  pathname : String := "/"
  search : String := ""
  deriving DecidableEq, Repr

/-- The only hostname `makeRequest` accepts (src/safepi.js line 92). -/
def expectedApiHost : String := "observatory-api.mdn.mozilla.net"

/-- `makeRequest` from src/safepi.js lines 87-155, over the parsed URL: the
hostname gate runs before any request is issued; when it passes, exactly one
network request effect is recorded and the oracle decides the outcome.  The
promise rejection carries the error message (`Except.error`). -/
def makeRequest (u : URLParts) (method : String) (data : Option String)
    (net : NetOutcome) : Except String (Int × ApiData) × List Effect :=
  if u.hostname ≠ expectedApiHost then
    (Except.error "Invalid API endpoint", [])
  else
    let fx := [Effect.netRequest u.hostname (u.port.getD 443)
                 (u.pathname ++ u.search) method]
    match net with
    | NetOutcome.netError m => (Except.error m, fx)
    | NetOutcome.respTooLarge => (Except.error "Response too large", fx)
    | NetOutcome.respBadJson m =>
      (Except.error ("Invalid JSON response: " ++ m), fx)
    | NetOutcome.respOk c d => (Except.ok (c, d), fx)

/-! ### `scanSingleDomain` (src/safepi.js lines 565-699) -/

/-- The result object `scanSingleDomain` returns, with the optional members
of the JavaScript object as `Option` fields. -/
structure JsResult where
  domain : String
  success : Bool
  score : Option Int := none
  passingScore : Option Int := none
  passed : Option Bool := none
  error : Option String := none
  deriving DecidableEq, Repr

/-- A failure result: `{ domain, success: false, error }`. -/
def mkFailure (d msg : String) : JsResult :=
  { domain := d, success := false, error := some msg }

/-- A success result (source lines 688-694): `passed` is computed as
`score >= passingScore`. -/
def mkSuccess (d : String) (sc ps : Int) : JsResult :=
  { domain := d, success := true, score := some sc, passingScore := some ps,
    passed := some (decide (ps ≤ sc)) }

/-- Oracle for the filesystem and clock inputs of the html output branch:
whether `existsSync` finds the report directory, whether `mkdirSync` or
`writeFileSync` throw (and with what message), the working directory, and
the `generateTimestamp()` value. -/
structure SysEnv where
  dirExists : Bool := true
  mkdirErr : Option String := none
  writeErr : Option String := none
  cwd : String := "/work"
  timestamp : String := "20250101000000"
  deriving DecidableEq, Repr

/-- JavaScript truthiness of the optional `error` payload member (the empty
string is falsy). -/
def jsTruthyStr : Option String → Bool
  | some s => s ≠ ""
  | none => false

/-- The filename sanitizer of source line 674: every character outside
`[a-zA-Z0-9]` becomes an underscore. -/
def sanitizeDomain (d : String) : String :=
  String.mk (d.toList.map fun c => if isAlnumC c then c else '_')

/-- The parsed form of the request URL built on source line 587:
`https://observatory-api.mdn.mozilla.net/api/v2/scan?host=<encoded domain>`
(the hostname component of the literal template is the API host). -/
def scanUrlParts (d : String) : URLParts :=
  { hostname := expectedApiHost, port := none, pathname := "/api/v2/scan",
    search := "?host=" ++ encodeURIComponent d }

/-- `JSON.stringify({ hidden, rescan })` of source lines 590-593. -/
def requestBody (hidden rescan : Bool) : String :=
  "\x7b\"hidden\":" ++ (if hidden then "true" else "false") ++
    ",\"rescan\":" ++ (if rescan then "true" else "false") ++ "\x7d"

/-- The error message thrown on a dangerous output path (source line 663). -/
def pathTraversalMsg : String :=
  "Invalid output path: Path traversal or absolute path detected."

/-- The message of the `URIError` thrown by `decodeURIComponent`. -/
def uriMalformedMsg : String := "URI malformed"

/-- The `console.error` line of the catch block (source line 696). -/
def errScanningFx (d msg : String) : Effect :=
  Effect.consoleErr ("Error scanning " ++ d ++ ": " ++ msg)

/-- The html output branch of `scanSingleDomain` (source lines 630-685),
after the report text has been rendered: run the path-traversal check (a
thrown error is `some message`; nothing has been written at that point),
then create the directory if absent, then write the report file.  Returns
the thrown message, if any, together with the effects that happened. -/
def htmlStep (hostDomain : String) (opts : Options) (sys : SysEnv) :
    Option String × List Effect :=
  match isPathTraversal opts.output with
  | none => (some uriMalformedMsg, [])
  | some true => (some pathTraversalMsg, [])
  | some false =>
    let fxMk : List Effect :=
      if sys.dirExists then [] else [Effect.fsMkdir opts.output]
    if !sys.dirExists && sys.mkdirErr.isSome then
      (some (sys.mkdirErr.getD ""), fxMk)
    else
      let filename :=
        "safepi_" ++ sanitizeDomain hostDomain ++ "_" ++ sys.timestamp ++ ".html"
      let filepath := joinPath (resolvePath sys.cwd opts.output) filename
      match sys.writeErr with
      | some m => (some m, fxMk ++ [Effect.fsWrite filepath])
      | none =>
        (none, fxMk ++ [Effect.fsWrite filepath,
           Effect.consoleOut ("HTML report saved to: " ++ filepath)])

/-- `scanSingleDomain` from src/safepi.js: validate the domain, call the
API, classify the response, render output per the configured format, and
convert every thrown error into a failure result (the try/catch of lines
584-698). -/
def scanSingleDomain (hostDomain : String) (opts : Options) (net : NetOutcome)
    (sys : SysEnv) : JsResult × List Effect :=
  if ¬ isValidDomain (some hostDomain) then
    (mkFailure hostDomain "Invalid domain format",
     [Effect.consoleErr ("Invalid domain: " ++ hostDomain)])
  else
    let fx0 := [Effect.consoleOut ("Scanning " ++ hostDomain ++ "...")]
    let req := makeRequest (scanUrlParts hostDomain) "POST"
                 (some (requestBody opts.hidden opts.rescan)) net
    let fx1 := fx0 ++ req.2
    match req.1 with
    | Except.error msg =>
      (mkFailure hostDomain msg, fx1 ++ [errScanningFx hostDomain msg])
    | Except.ok (statusCode, dat) =>
      if statusCode ≠ 200 then
        (mkFailure hostDomain ("HTTP " ++ toString statusCode),
         fx1 ++ [Effect.consoleErr
                   ("API Error for " ++ hostDomain ++ ": HTTP " ++
                     toString statusCode),
                 Effect.consoleErrData])
      else if jsTruthyStr dat.errField then
        let msg := dat.errField.getD ""
        (mkFailure hostDomain msg,
         fx1 ++ [Effect.consoleErr ("Scan Error for " ++ hostDomain ++ ": " ++ msg)])
      else if opts.report = "text" then
        (mkSuccess hostDomain dat.score opts.score, fx1 ++ [Effect.report "text"])
      else if opts.report = "pretty" then
        (mkSuccess hostDomain dat.score opts.score, fx1 ++ [Effect.report "pretty"])
      else if opts.report = "html" then
        match htmlStep hostDomain opts sys with
        | (some msg, fxH) =>
          (mkFailure hostDomain msg, fx1 ++ fxH ++ [errScanningFx hostDomain msg])
        | (none, fxH) =>
          (mkSuccess hostDomain dat.score opts.score, fx1 ++ fxH)
      else
        (mkSuccess hostDomain dat.score opts.score, fx1)

/-! ### `main` (src/safepi.js lines 765-829)

The per-domain loop with its inter-domain separator and rate-limit delay,
and the final exit-code decision.  The multi-domain summary block only
prints already-recorded results; its console writes are not traced. -/

/-- `domains[domains.length - 1]` of source line 785. -/
def lastDomain (l : List String) : String := (l.getLast?).getD ""

/-- The effects emitted after one domain is processed (source lines 785-789):
a separator line and a 2000 ms delay, but only when the run has several
domains and the current domain is not string-equal to the last list entry. -/
def interFx (domains : List String) (d : String) : List Effect :=
  if 1 < domains.length ∧ d ≠ lastDomain domains then
    [Effect.separator, Effect.sleep 2000]
  else []

/-- The `for (const domain of domains)` loop of `main`, threading the
per-domain oracles by position. -/
def runScans (opts : Options) (net : Nat → NetOutcome) (sys : Nat → SysEnv) :
    List String → Nat → List JsResult × List Effect
  | [], _ => ([], [])
  | d :: ds, i =>
    let step := scanSingleDomain d opts (net i) (sys i)
    let rest := runScans opts net sys ds (i + 1)
    (step.1 :: rest.1, step.2 ++ interFx opts.domains d ++ rest.2)

/-- The scan phase of `main`: the result list and the effect trace. -/
def mainRun (opts : Options) (net : Nat → NetOutcome) (sys : Nat → SysEnv) :
    List JsResult × List Effect :=
  runScans opts net sys opts.domains 0

/-- JavaScript truthiness of the optional `passed` member (`!result.passed`
is true unless `passed` is the boolean `true`). -/
def jsTruthyB : Option Bool → Bool
  | some true => true
  | _ => false

/-- The exit-code decision of `main` (source lines 769-828): the loop sets
`hasErrors` when some result has `success` false and `hasFailures` when some
successful result has a falsy `passed`; the process exits 1 when
`hasErrors || (shouldFailOnError && hasFailures)` and 0 otherwise. -/
def exitCode (results : List JsResult) (failFlag : Bool) : Nat :=
  let hasErrors := results.any fun r => !r.success
  let hasFailures := results.any fun r => r.success && !jsTruthyB r.passed
  if hasErrors || (failFlag && hasFailures) then 1 else 0

/-- The process exit code of a whole run. -/
def mainExit (opts : Options) (net : Nat → NetOutcome) (sys : Nat → SysEnv) : Nat :=
  exitCode (mainRun opts net sys).1 opts.fail

/-- Is this effect neither a directory creation nor a file write? -/
def fsFreeE : Effect → Bool
  | Effect.fsMkdir _ => false
  | Effect.fsWrite _ => false
  | _ => true

/-- A trace containing no filesystem mutation. -/
def fsFree (fx : List Effect) : Bool := fx.all fsFreeE

/-- Is this effect not a network request? -/
def netFreeE : Effect → Bool
  | Effect.netRequest _ _ _ _ => false
  | _ => true

/-- A trace containing no network request. -/
def netFree (fx : List Effect) : Bool := fx.all netFreeE

/-! ### Concrete instances used by the witness theorems -/

/-- A clean API response with score 50. -/
def netOk50 : NetOutcome := NetOutcome.respOk 200 { score := 50 }

/-- A transport failure. -/
def netRefused : NetOutcome := NetOutcome.netError "connect ECONNREFUSED"

/-- The default filesystem oracle: directory exists, no errors. -/
def sysDefault : SysEnv := {}

/-- A single-domain text-format configuration. -/
def optsText : Options :=
  { defaultOptions with domains := ["example.com"], report := "text" }

/-- An html-format configuration with a traversal output path. -/
def optsHtmlDanger : Options :=
  { defaultOptions with
      domains := ["example.com"], report := "html", output := "../../etc/" }

/-- A run whose domain list repeats the last entry. -/
def optsDupLocal : Options :=
  { defaultOptions with domains := ["localhost", "localhost"] }

/-- A URL pointing away from the API host. -/
def evilUrl : URLParts := { hostname := "evil.com" }

/-- A run over two distinct domains. -/
def optsTwo : Options :=
  { defaultOptions with domains := ["a.com", "b.com"] }

/-- A result list holding one transport failure. -/
def oneFailureResults : List JsResult := [mkFailure "a.com" "HTTP 500"]

/-! ## Lemmas -/

/-- `splitOnChar` always yields at least one piece. -/
theorem splitOnChar_ne_nil (sep : Char) (l : List Char) :
    splitOnChar sep l ≠ [] := by
  cases l with
  | nil => simp [splitOnChar]
  | cons c cs =>
    unfold splitOnChar
    by_cases h : c = sep
    · simp [h]
    · simp only [if_neg h]
      cases splitOnChar sep cs <;> simp

/-- A non-separator character of the input lies in one of the pieces. -/
theorem mem_splitOnChar {sep c : Char} {l : List Char} (h : c ∈ l)
    (hne : c ≠ sep) : ∃ lab ∈ splitOnChar sep l, c ∈ lab := by
  induction l with
  | nil => exact absurd h (List.not_mem_nil c)
  | cons x xs ih =>
    unfold splitOnChar
    by_cases hx : x = sep
    · rw [if_pos hx]
      rcases List.mem_cons.mp h with rfl | h2
      · exact absurd hx hne
      · rcases ih h2 with ⟨lab, hlab, hc⟩
        exact ⟨lab, List.mem_cons_of_mem _ hlab, hc⟩
    · rw [if_neg hx]
      rcases hr : splitOnChar sep xs with _ | ⟨l0, ls⟩
      · exact absurd hr (splitOnChar_ne_nil sep xs)
      · rcases List.mem_cons.mp h with rfl | h2
        · exact ⟨c :: l0, List.mem_cons_self _ _, List.mem_cons_self _ _⟩
        · rcases ih h2 with ⟨lab, hlab, hc⟩
          rw [hr] at hlab
          rcases List.mem_cons.mp hlab with rfl | h3
          · exact ⟨x :: lab, List.mem_cons_self _ _, List.mem_cons_of_mem _ hc⟩
          · exact ⟨lab, List.mem_cons_of_mem _ h3, hc⟩

/-- A character outside the label class is not alphanumeric either. -/
theorem isAlnumC_false_of {c : Char} (h : isLabelChar c = false) :
    isAlnumC c = false := by
  revert h; unfold isLabelChar; cases isAlnumC c <;> simp

/-- A label tail containing a character outside `[a-zA-Z0-9-]` fails. -/
theorem midLast_false {c : Char} (h1 : isLabelChar c = false) :
    ∀ {l : List Char}, c ∈ l → midLast l = false
  | [], h => absurd h (List.not_mem_nil c)
  | [x], h => by
    rcases List.mem_singleton.mp h with rfl
    simp [midLast, isAlnumC_false_of h1]
  | x :: y :: xs, h => by
    rcases List.mem_cons.mp h with rfl | h3
    · simp [midLast, h1]
    · simp [midLast, midLast_false h1 h3]

/-- A label containing a character outside `[a-zA-Z0-9-]` fails. -/
theorem labelOk_false {c : Char} {l : List Char} (h : c ∈ l)
    (h1 : isLabelChar c = false) : labelOk l = false := by
  cases l with
  | nil => rfl
  | cons x xs =>
    rcases List.mem_cons.mp h with rfl | h2
    · simp [labelOk, isAlnumC_false_of h1]
    · simp [labelOk, midLast_false h1 h2]

/-- The domain regular expression rejects any string holding a character
that is neither a dot nor in `[a-zA-Z0-9-]`. -/
theorem domainRegexTest_false {c : Char} {l : List Char} (h : c ∈ l)
    (h1 : isLabelChar c = false) (h2 : c ≠ '.') :
    domainRegexTest l = false := by
  rcases mem_splitOnChar h h2 with ⟨lab, hlab, hc⟩
  unfold domainRegexTest
  rw [List.all_eq_false]
  exact ⟨lab, hlab, by simp [labelOk_false hc h1]⟩

/-- `isValidDomain` rejects any string containing a slash, question mark,
hash, or colon. -/
theorem isValidDomain_bad_char (s : String) (c : Char) (hc : c ∈ s.toList)
    (hcase : c = '/' ∨ c = '?' ∨ c = '#' ∨ c = ':') :
    isValidDomain (some s) = false := by
  have h1 : isLabelChar c = false := by
    rcases hcase with rfl | rfl | rfl | rfl <;> decide
  have h2 : c ≠ '.' := by
    rcases hcase with rfl | rfl | rfl | rfl <;> decide
  have h3 : domainRegexTest s.data = false := domainRegexTest_false hc h1 h2
  simp [isValidDomain, h3]

/-- Characters of a `replaceAllC` output come from the replacement or are
untouched characters of the input. -/
theorem mem_replaceAllC {c t : Char} {rep : List Char} :
    ∀ {l : List Char}, c ∈ replaceAllC t rep l → c ∈ rep ∨ (c ∈ l ∧ c ≠ t) := by
  intro l
  induction l with
  | nil => intro h; simp [replaceAllC] at h
  | cons x xs ih =>
    intro h
    unfold replaceAllC at h
    rcases List.mem_append.mp h with h1 | h2
    · by_cases hx : x = t
      · rw [if_pos hx] at h1; exact Or.inl h1
      · rw [if_neg hx] at h1
        rcases List.mem_singleton.mp h1 with rfl
        exact Or.inr ⟨List.mem_cons_self _ _, hx⟩
    · rcases ih h2 with h3 | ⟨h4, h5⟩
      · exact Or.inl h3
      · exact Or.inr ⟨List.mem_cons_of_mem _ h4, h5⟩

/-- No character of an `escapeHtmlChars` output is a less-than, greater-than,
double-quote, or apostrophe. -/
theorem escapeHtmlChars_no_specials {c : Char} {l : List Char}
    (h : c ∈ escapeHtmlChars l) :
    c ≠ '<' ∧ c ≠ '>' ∧ c ≠ dquoteC ∧ c ≠ squoteC := by
  unfold escapeHtmlChars at h
  rcases mem_replaceAllC h with h5 | ⟨h, hsq⟩
  · have h5d : c = '&' ∨ c = '#' ∨ c = '3' ∨ c = '9' ∨ c = ';' := by
      simpa using (h5 : c ∈ ['&', '#', '3', '9', ';'])
    rcases h5d with rfl | rfl | rfl | rfl | rfl <;>
      exact ⟨by decide, by decide, by decide, by decide⟩
  · rcases mem_replaceAllC h with h4 | ⟨h, hdq⟩
    · have h4d : c = '&' ∨ c = 'q' ∨ c = 'u' ∨ c = 'o' ∨ c = 't' ∨ c = ';' := by
        simpa using (h4 : c ∈ ['&', 'q', 'u', 'o', 't', ';'])
      rcases h4d with rfl | rfl | rfl | rfl | rfl | rfl <;>
        exact ⟨by decide, by decide, by decide, by decide⟩
    · rcases mem_replaceAllC h with h3 | ⟨h, hgt⟩
      · have h3d : c = '&' ∨ c = 'g' ∨ c = 't' ∨ c = ';' := by
          simpa using (h3 : c ∈ ['&', 'g', 't', ';'])
        rcases h3d with rfl | rfl | rfl | rfl <;>
          exact ⟨by decide, by decide, by decide, by decide⟩
      · rcases mem_replaceAllC h with h2 | ⟨h, hlt⟩
        · have h2d : c = '&' ∨ c = 'l' ∨ c = 't' ∨ c = ';' := by
            simpa using (h2 : c ∈ ['&', 'l', 't', ';'])
          rcases h2d with rfl | rfl | rfl | rfl <;>
            exact ⟨by decide, by decide, by decide, by decide⟩
        · exact ⟨hlt, hgt, hdq, hsq⟩

/-- Every result of `scanSingleDomain` is either a failure for the input
domain or a success built from a score and the configured passing score. -/
theorem scanSingleDomain_shape (hostDomain : String) (opts : Options)
    (net : NetOutcome) (sys : SysEnv) :
    (∃ msg, (scanSingleDomain hostDomain opts net sys).1 =
        mkFailure hostDomain msg) ∨
    (∃ sc, (scanSingleDomain hostDomain opts net sys).1 =
        mkSuccess hostDomain sc opts.score) := by
  by_cases hv : isValidDomain (some hostDomain) = true
  · simp only [scanSingleDomain, hv, not_true_eq_false, if_false]
    cases hm : (makeRequest (scanUrlParts hostDomain) "POST"
        (some (requestBody opts.hidden opts.rescan)) net).1 with
    | error msg => exact Or.inl ⟨msg, by simp [hm]⟩
    | ok p =>
      obtain ⟨code, dat⟩ := p
      by_cases hc : code = 200
      · by_cases he : jsTruthyStr dat.errField = true
        · exact Or.inl ⟨dat.errField.getD "", by simp [hm, hc, he]⟩
        · by_cases ht : opts.report = "text"
          · exact Or.inr ⟨dat.score, by simp [hm, hc, he, ht]⟩
          · by_cases hp : opts.report = "pretty"
            · exact Or.inr ⟨dat.score, by simp [hm, hc, he, ht, hp]⟩
            · by_cases hh : opts.report = "html"
              · cases hstep : htmlStep hostDomain opts sys with
                | mk msgOpt fxH =>
                  cases msgOpt with
                  | some msg =>
                    exact Or.inl ⟨msg, by simp [hm, hc, he, ht, hp, hh, hstep]⟩
                  | none =>
                    exact Or.inr ⟨dat.score, by simp [hm, hc, he, ht, hp, hh, hstep]⟩
              · exact Or.inr ⟨dat.score, by simp [hm, hc, he, ht, hp, hh]⟩
      · exact Or.inl ⟨"HTTP " ++ toString code, by simp [hm, hc]⟩
  · exact Or.inl ⟨"Invalid domain format", by simp [scanSingleDomain, hv]⟩

/-- `makeRequest` touches no filesystem. -/
theorem makeRequest_fsFree (u : URLParts) (method : String)
    (data : Option String) (net : NetOutcome) :
    fsFree (makeRequest u method data net).2 = true := by
  unfold makeRequest
  split
  · rfl
  · cases net <;> rfl

/-- The inter-domain separator and delay touch no filesystem. -/
theorem interFx_fsFree (domains : List String) (d : String) :
    fsFree (interFx domains d) = true := by
  unfold interFx
  split <;> rfl

/-- With an html format and a dangerous output path, every scan attempt ends
in a failure result and its trace holds no directory creation and no file
write: the traversal check rejects before the filesystem is touched. -/
theorem scan_html_danger (hostDomain : String) (opts : Options)
    (net : NetOutcome) (sys : SysEnv)
    (hfmt : opts.report = "html")
    (hdanger : isPathTraversal opts.output = some true) :
    (scanSingleDomain hostDomain opts net sys).1.success = false ∧
      fsFree (scanSingleDomain hostDomain opts net sys).2 = true := by
  have hreq := makeRequest_fsFree (scanUrlParts hostDomain) "POST"
    (some (requestBody opts.hidden opts.rescan)) net
  by_cases hv : isValidDomain (some hostDomain) = true
  · simp only [scanSingleDomain, hv, not_true_eq_false, if_false]
    cases hm : (makeRequest (scanUrlParts hostDomain) "POST"
        (some (requestBody opts.hidden opts.rescan)) net).1 with
    | error msg =>
      simp [hm, mkFailure, fsFree, fsFreeE, errScanningFx, List.all_append]
        at hreq ⊢
      exact hreq
    | ok p =>
      obtain ⟨code, dat⟩ := p
      by_cases hc : code = 200
      · by_cases he : jsTruthyStr dat.errField = true
        · simp [hm, hc, he, mkFailure, fsFree, fsFreeE, errScanningFx,
            List.all_append] at hreq ⊢
          exact hreq
        · have hstep : htmlStep hostDomain opts sys = (some pathTraversalMsg, []) := by
            simp [htmlStep, hdanger]
          simp [hm, hc, he, hfmt, hstep, mkFailure, fsFree, fsFreeE,
            errScanningFx, List.all_append] at hreq ⊢
          exact hreq
      · simp [hm, hc, mkFailure, fsFree, fsFreeE, errScanningFx,
          List.all_append] at hreq ⊢
        exact hreq
  · simp [scanSingleDomain, hv, mkFailure, fsFree, fsFreeE]

/-- A leading failure result forces exit code 1. -/
theorem exitCode_head_failure (r : JsResult) (rs : List JsResult)
    (failFlag : Bool) (h : r.success = false) :
    exitCode (r :: rs) failFlag = 1 := by
  simp [exitCode, h]

/-- With an html format and a dangerous output path, the whole scan loop
produces only failure results and a trace free of filesystem mutations. -/
theorem runScans_html_danger (opts : Options) (net : Nat → NetOutcome)
    (sys : Nat → SysEnv) (hfmt : opts.report = "html")
    (hdanger : isPathTraversal opts.output = some true) :
    ∀ (ds : List String) (i : Nat),
      (∀ r ∈ (runScans opts net sys ds i).1, r.success = false) ∧
        fsFree (runScans opts net sys ds i).2 = true
  | [], i => by simp [runScans, fsFree]
  | d :: ds, i => by
    have hd := scan_html_danger d opts (net i) (sys i) hfmt hdanger
    have ih := runScans_html_danger opts net sys hfmt hdanger ds (i + 1)
    have hsep := interFx_fsFree opts.domains d
    constructor
    · intro r hr
      simp only [runScans, List.mem_cons] at hr
      rcases hr with rfl | hr
      · exact hd.1
      · exact ih.1 r hr
    · simp only [runScans, fsFree, List.all_append, Bool.and_eq_true]
      exact ⟨⟨hd.2, hsep⟩, ih.2⟩

/-! ## Claim theorems -/

/-- C3: `isValidDomain` is false for null/undefined, the empty string,
`localhost`, `127.0.0.1`, every 254-character string, `example..com`,
`.example.com`, `example.com.`, and every string containing a slash,
question mark, hash, or colon; it is true for `example.com`,
`sub.example.com`, `example-site.com`, and `123.com`. -/
theorem isValidDomain_spec :
    isValidDomain none = false ∧
    isValidDomain (some "") = false ∧
    isValidDomain (some "localhost") = false ∧
    isValidDomain (some "127.0.0.1") = false ∧
    (∀ s : String, s.length = 254 → isValidDomain (some s) = false) ∧
    isValidDomain (some "example..com") = false ∧
    isValidDomain (some ".example.com") = false ∧
    isValidDomain (some "example.com.") = false ∧
    (∀ s : String, ∀ c ∈ s.toList, (c = '/' ∨ c = '?' ∨ c = '#' ∨ c = ':') →
      isValidDomain (some s) = false) ∧
    isValidDomain (some "example.com") = true ∧
    isValidDomain (some "sub.example.com") = true ∧
    isValidDomain (some "example-site.com") = true ∧
    isValidDomain (some "123.com") = true := by
  refine ⟨by decide, by decide, by decide, by decide,
          fun s hlen => ?_,
          by decide, by decide, by decide,
          fun s c hc hcase => isValidDomain_bad_char s c hc hcase,
          by decide, by decide, by decide, by decide⟩
  have h : 253 < s.length := by omega
  simp [isValidDomain, h]

set_option maxRecDepth 4000 in
/-- Witness for C3: the universally quantified conjuncts applied to the
concrete inputs `"a/b"` and a 254-character string. -/
theorem isValidDomain_spec_witness :
    isValidDomain (some "a/b") = false ∧
    isValidDomain (some (String.mk (List.replicate 254 'a'))) = false :=
  ⟨isValidDomain_spec.2.2.2.2.2.2.2.2.1 "a/b" '/' (by decide) (Or.inl rfl),
   isValidDomain_spec.2.2.2.2.1 (String.mk (List.replicate 254 'a'))
     (by simp [String.length])⟩

/-- C4 counterexample: the claim says the output of `escapeHtml` contains no
literal occurrence of any of the five escaped characters, but escaping the
one-character string `&` yields `&amp;`, which does contain a literal
ampersand. -/
theorem escapeHtml_literal_amp_cex :
    '&' ∈ "&".toList ∧ escapeHtml (some "&") = "&amp;" ∧
      '&' ∈ (escapeHtml (some "&")).toList := by
  decide

/-- C4 (amended): the output of `escapeHtml` contains no literal less-than,
greater-than, double-quote, or apostrophe (ampersands do occur, since every
replacement entity itself starts with one), and null/undefined input yields
the empty string rather than an error. -/
theorem escapeHtml_spec :
    (∀ s : String, ∀ c ∈ (escapeHtml (some s)).toList,
      c ≠ '<' ∧ c ≠ '>' ∧ c ≠ dquoteC ∧ c ≠ squoteC) ∧
    escapeHtml none = "" := by
  refine ⟨fun s c hc => ?_, rfl⟩
  simp only [escapeHtml] at hc
  by_cases hs : s = ""
  · rw [if_pos hs] at hc
    exact absurd hc (List.not_mem_nil c)
  · rw [if_neg hs] at hc
    exact escapeHtmlChars_no_specials hc

/-- Witness for C4: the amended theorem applied at the input `"<"` and the
output character `l` of `&lt;`. -/
theorem escapeHtml_spec_witness :
    'l' ∈ (escapeHtml (some "<")).toList ∧
      ('l' ≠ '<' ∧ 'l' ≠ '>' ∧ 'l' ≠ dquoteC ∧ 'l' ≠ squoteC) :=
  ⟨by decide, escapeHtml_spec.1 "<" 'l' (by decide)⟩

/-- C1: the exit code is non-zero exactly when some result is a failure, or
the fail flag is set and some successful result did not pass; the hypothesis
records that successful results always carry a `passed` boolean, which
`scanSingleDomain` guarantees. -/
theorem exitCode_spec (results : List JsResult) (failFlag : Bool)
    (hwf : ∀ r ∈ results, r.success = true → (r.passed).isSome = true) :
    exitCode results failFlag ≠ 0 ↔
      ((∃ r ∈ results, r.success = false) ∨
        (failFlag = true ∧ ∃ r ∈ results, r.success = true ∧
          r.passed = some false)) := by
  have hstep : exitCode results failFlag ≠ 0 ↔
      ((results.any fun r => !r.success) ||
        (failFlag && results.any fun r => r.success && !jsTruthyB r.passed)) = true := by
    simp only [exitCode]
    split
    next h => simp [h]
    next h => simp [h]
  rw [hstep]
  simp only [Bool.or_eq_true, Bool.and_eq_true, List.any_eq_true,
    Bool.not_eq_true']
  constructor
  · rintro (⟨r, hr, hS⟩ | ⟨hF, r, hr, hS, hP⟩)
    · exact Or.inl ⟨r, hr, hS⟩
    · refine Or.inr ⟨hF, r, hr, hS, ?_⟩
      rcases Option.isSome_iff_exists.mp (hwf r hr hS) with ⟨b, hb⟩
      cases b
      · exact hb
      · rw [hb] at hP; simp [jsTruthyB] at hP
  · rintro (⟨r, hr, hS⟩ | ⟨hF, r, hr, hS, hP⟩)
    · exact Or.inl ⟨r, hr, hS⟩
    · exact Or.inr ⟨hF, r, hr, hS, by rw [hP]; rfl⟩

/-- Witness for C1: a list holding one failure makes the exit code non-zero
even with the fail flag off. -/
theorem exitCode_spec_witness : exitCode oneFailureResults false ≠ 0 :=
  (exitCode_spec oneFailureResults false (by decide)).mpr
    (Or.inl ⟨mkFailure "a.com" "HTTP 500", by decide, by decide⟩)

/-- C5: a URL whose hostname is not the fixed API host is rejected with
`Invalid API endpoint` and no network request is issued. -/
theorem makeRequest_host_gate (u : URLParts) (method : String)
    (data : Option String) (net : NetOutcome)
    (h : u.hostname ≠ expectedApiHost) :
    makeRequest u method data net = (Except.error "Invalid API endpoint", []) := by
  simp [makeRequest, h]

/-- Witness for C5: the gate applied to a URL pointing at `evil.com`. -/
theorem makeRequest_host_gate_witness :
    makeRequest evilUrl "GET" none netOk50 =
      (Except.error "Invalid API endpoint", []) :=
  makeRequest_host_gate evilUrl "GET" none netOk50 (by decide)

/-- C8: a domain rejected by `isValidDomain` yields the failure result
`Invalid domain format` and the trace holds no network request. -/
theorem invalid_domain_rejected (hostDomain : String) (opts : Options)
    (net : NetOutcome) (sys : SysEnv)
    (h : isValidDomain (some hostDomain) = false) :
    (scanSingleDomain hostDomain opts net sys).1 =
        mkFailure hostDomain "Invalid domain format" ∧
      netFree (scanSingleDomain hostDomain opts net sys).2 = true := by
  simp [scanSingleDomain, h, netFree, netFreeE]

/-- Witness for C8: the rejection applied at `localhost`. -/
theorem invalid_domain_rejected_witness :
    (scanSingleDomain "localhost" optsText netOk50 sysDefault).1 =
        mkFailure "localhost" "Invalid domain format" ∧
      netFree (scanSingleDomain "localhost" optsText netOk50 sysDefault).2 = true :=
  invalid_domain_rejected "localhost" optsText netOk50 sysDefault (by decide)

/-- C9: a `--score`/`-s` value on which `parseInt` yields `NaN` makes the
parser print the score error to standard error and exit with code 1, for
both spellings of the flag. -/
theorem score_non_numeric_exits (v : String) (rest : List String) (o : Options)
    (h : jsParseInt v = none) :
    parseLoop ("-s" :: v :: rest) o =
        ParseResult.exit 1 ["Error: --score must be a number"] false ∧
      parseLoop ("--score" :: v :: rest) o =
        ParseResult.exit 1 ["Error: --score must be a number"] false := by
  constructor <;> simp [parseLoop, h]

/-- Witness for C9: the parser applied to the literal value `abc`. -/
theorem score_non_numeric_exits_witness :
    parseLoop ["-s", "abc"] defaultOptions =
        ParseResult.exit 1 ["Error: --score must be a number"] false ∧
      parseLoop ["--score", "abc"] defaultOptions =
        ParseResult.exit 1 ["Error: --score must be a number"] false :=
  score_non_numeric_exits "abc" [] defaultOptions (by decide)

/-- C7: every successful scan result carries `passed` computed as
`score >= passingScore`, with the configured threshold as `passingScore`. -/
theorem scan_passed_invariant (hostDomain : String) (opts : Options)
    (net : NetOutcome) (sys : SysEnv)
    (h : (scanSingleDomain hostDomain opts net sys).1.success = true) :
    ∃ sc ps, (scanSingleDomain hostDomain opts net sys).1.score = some sc ∧
      (scanSingleDomain hostDomain opts net sys).1.passingScore = some ps ∧
      (scanSingleDomain hostDomain opts net sys).1.passed =
        some (decide (ps ≤ sc)) := by
  rcases scanSingleDomain_shape hostDomain opts net sys with ⟨msg, hm⟩ | ⟨sc, hm⟩
  · rw [hm] at h; simp [mkFailure] at h
  · exact ⟨sc, opts.score, by rw [hm]; rfl, by rw [hm]; rfl, by rw [hm]; rfl⟩

/-- Witness for C7: the invariant at a concrete successful scan (score 50
against threshold 100). -/
theorem scan_passed_invariant_witness :
    ∃ sc ps,
      (scanSingleDomain "example.com" optsText netOk50 sysDefault).1.score =
        some sc ∧
      (scanSingleDomain "example.com" optsText netOk50 sysDefault).1.passingScore =
        some ps ∧
      (scanSingleDomain "example.com" optsText netOk50 sysDefault).1.passed =
        some (decide (ps ≤ sc)) :=
  scan_passed_invariant "example.com" optsText netOk50 sysDefault (by decide)

/-- C10: `scanSingleDomain` always returns a record echoing the input domain,
and every unsuccessful record carries an error message (the embedding is a
total function: the try/catch of the source converts every thrown error into
such a record). -/
theorem scanSingleDomain_total (hostDomain : String) (opts : Options)
    (net : NetOutcome) (sys : SysEnv) :
    (scanSingleDomain hostDomain opts net sys).1.domain = hostDomain ∧
      ((scanSingleDomain hostDomain opts net sys).1.success = false →
        ((scanSingleDomain hostDomain opts net sys).1.error).isSome = true) := by
  rcases scanSingleDomain_shape hostDomain opts net sys with ⟨msg, hm⟩ | ⟨sc, hm⟩ <;>
    rw [hm]
  · exact ⟨rfl, fun _ => rfl⟩
  · exact ⟨rfl, fun hfalse => by simp [mkSuccess] at hfalse⟩

/-- Witness for C10: the totality shape at a concrete failing input. -/
theorem scanSingleDomain_total_witness :
    (scanSingleDomain "localhost" optsText netOk50 sysDefault).1.domain =
        "localhost" ∧
      ((scanSingleDomain "localhost" optsText netOk50 sysDefault).1.error).isSome =
        true :=
  ⟨(scanSingleDomain_total "localhost" optsText netOk50 sysDefault).1,
   (scanSingleDomain_total "localhost" optsText netOk50 sysDefault).2 (by decide)⟩

/-- C2: with an html report format and an output path the traversal check
flags as dangerous, the run exits with code 1, its whole trace holds no
directory creation and no file write, and any scan that reaches the html
step fails with the path-traversal error message. -/
theorem html_traversal_aborts (opts : Options) (net : Nat → NetOutcome)
    (sys : Nat → SysEnv) (hfmt : opts.report = "html")
    (hdanger : isPathTraversal opts.output = some true)
    (hne : opts.domains ≠ []) :
    mainExit opts net sys = 1 ∧
      fsFree (mainRun opts net sys).2 = true ∧
      (∀ (d : String) (s : SysEnv) (dat : ApiData),
        isValidDomain (some d) = true → jsTruthyStr dat.errField = false →
        (scanSingleDomain d opts (NetOutcome.respOk 200 dat) s).1.error =
          some pathTraversalMsg) := by
  have hrun := runScans_html_danger opts net sys hfmt hdanger opts.domains 0
  refine ⟨?_, hrun.2, ?_⟩
  · rcases hds : opts.domains with _ | ⟨d, ds⟩
    · exact absurd hds hne
    · unfold mainExit mainRun
      rw [hds]
      have hfail : (scanSingleDomain d opts (net 0) (sys 0)).1.success = false :=
        (scan_html_danger d opts (net 0) (sys 0) hfmt hdanger).1
      have h1 : (runScans opts net sys (d :: ds) 0).1 =
          (scanSingleDomain d opts (net 0) (sys 0)).1 ::
            (runScans opts net sys ds (0 + 1)).1 := rfl
      rw [h1]
      exact exitCode_head_failure _ _ opts.fail hfail
  · intro d s dat hvd hce
    have hstep : htmlStep d opts s = (some pathTraversalMsg, []) := by
      simp [htmlStep, hdanger]
    simp [scanSingleDomain, hvd, makeRequest, scanUrlParts, hce, hfmt, hstep,
      mkFailure]

/-- Witness for C2: a single-domain html run with output `../../etc/` exits
with code 1, and the scan that reaches the html step carries the traversal
error. -/
theorem html_traversal_aborts_witness :
    mainExit optsHtmlDanger (fun _ => netOk50) (fun _ => sysDefault) = 1 ∧
      (scanSingleDomain "example.com" optsHtmlDanger
          (NetOutcome.respOk 200 { score := 50 }) sysDefault).1.error =
        some pathTraversalMsg :=
  ⟨(html_traversal_aborts optsHtmlDanger (fun _ => netOk50)
      (fun _ => sysDefault) rfl (by decide) (by decide)).1,
   (html_traversal_aborts optsHtmlDanger (fun _ => netOk50)
      (fun _ => sysDefault) rfl (by decide) (by decide)).2.2 "example.com"
      sysDefault { score := 50 } (by decide) (by decide)⟩

/-- C6 counterexample: the claim says every domain except the last is
followed by a separator and delay, but in a two-domain run where the first
domain is string-equal to the last entry the whole trace holds no separator
at all (the source compares the current domain to `domains[length - 1]` by
value, not by position). -/
theorem separator_duplicate_cex :
    1 < optsDupLocal.domains.length ∧
      Effect.separator ∉
        (mainRun optsDupLocal (fun _ => netOk50) (fun _ => sysDefault)).2 := by
  constructor
  · decide
  · decide

/-- C6 (amended): in a multi-domain run, after processing a domain that is
not string-equal to the last entry of the domain list, the orchestrator
emits the separator and the fixed 2000 ms delay before the remaining scans;
a non-final domain equal to the last entry gets neither. -/
theorem separator_after_non_last (opts : Options) (net : Nat → NetOutcome)
    (sys : Nat → SysEnv) (d : String) (ds : List String) (i : Nat)
    (hlen : 1 < opts.domains.length) (hlast : d ≠ lastDomain opts.domains) :
    (runScans opts net sys (d :: ds) i).2 =
      (scanSingleDomain d opts (net i) (sys i)).2 ++
        [Effect.separator, Effect.sleep 2000] ++
        (runScans opts net sys ds (i + 1)).2 := by
  simp [runScans, interFx, hlen, hlast]

/-- Witness for C6: the separator and delay after the first of two distinct
domains. -/
theorem separator_after_non_last_witness :
    (runScans optsTwo (fun _ => netOk50) (fun _ => sysDefault)
        ("a.com" :: ["b.com"]) 0).2 =
      (scanSingleDomain "a.com" optsTwo netOk50 sysDefault).2 ++
        [Effect.separator, Effect.sleep 2000] ++
        (runScans optsTwo (fun _ => netOk50) (fun _ => sysDefault)
          ["b.com"] 1).2 :=
  separator_after_non_last optsTwo (fun _ => netOk50) (fun _ => sysDefault)
    "a.com" ["b.com"] 0 (by decide) (by decide)

end SafePI
